import Mathlib

/-
  Verification development for the stock breakout analyzer (src/app.py).

  The core of the program is `analyze_breakouts(ticker, start_date, end_date,
  volume_threshold, price_threshold, holding_period)` plus the parameter gate in
  `main`.  We embed the engine shallowly: the external data fetch
  (`yf.download`) is a parameter (the fetched bar series), pandas floating
  point values that can be NaN or infinite are modelled by `PFloat`, and the
  Streamlit display calls become fields of the result value.  Rational numbers
  stand in for Python floats; 1-decimal percent formatting followed by
  reparsing (lines 52-53 and 61 of app.py) is modelled as rounding to the
  nearest tenth of a percent with ties to even, which is the value the
  formatted string carries.
-/

namespace StockAnalysis

/-- One daily OHLCV bar as used by the engine: only date, close and volume are
read (app.py lines 31-33, 39-54).  Dates are day numbers. -/
structure Bar where
  date : Int
  close : ℚ
  volume : ℕ
deriving Repr, DecidableEq

/-- A pandas float value as seen by the comparisons and arithmetic in app.py:
NaN, plus or minus infinity, or a finite value. -/
inductive PFloat where
  | nan : PFloat
  | inf : PFloat
  | ninf : PFloat
  | val : ℚ → PFloat
deriving Repr, DecidableEq

/-- numpy / pandas float division: `0 / 0 = NaN`, `x / 0 = ±inf` for `x ≠ 0`. -/
def pdiv (num den : ℚ) : PFloat :=
  if den = 0 then
    if num = 0 then .nan else if 0 < num then .inf else .ninf
  else .val (num / den)

/-- The comparison `x > t` on a pandas float against a finite threshold:
`NaN > t` is false, `inf > t` is true, `-inf > t` is false. -/
def PFloat.gtQ : PFloat → ℚ → Bool
  | .nan, _ => false
  | .inf, _ => true
  | .ninf, _ => false
  | .val q, t => decide (t < q)

/-- Addition on pandas floats (used by the pandas `mean`): NaN propagates,
`inf + (-inf) = NaN`. -/
def PFloat.add : PFloat → PFloat → PFloat
  | .nan, _ => .nan
  | _, .nan => .nan
  | .inf, .ninf => .nan
  | .ninf, .inf => .nan
  | .inf, _ => .inf
  | .ninf, _ => .ninf
  | .val _, .inf => .inf
  | .val _, .ninf => .ninf
  | .val a, .val b => .val (a + b)

/-- Division of a pandas float by a bar count; the pandas mean of an empty
series is NaN. -/
def PFloat.divNat : PFloat → ℕ → PFloat
  | _, 0 => .nan
  | .nan, _ => .nan
  | .inf, _ => .inf
  | .ninf, _ => .ninf
  | .val q, n => .val (q / (n : ℚ))

/-- The pandas mean of a list of float values: sum divided by count. -/
def pmean (l : List PFloat) : PFloat :=
  PFloat.divNat (l.foldr PFloat.add (.val 0)) l.length

/-- Round a rational to the nearest integer, ties to even (the rounding of
Python float formatting and of `round`). -/
def hevRound (x : ℚ) : Int :=
  let f : Int := ⌊x⌋
  let r : ℚ := x - (f : ℚ)
  if r < 1/2 then f else if 1/2 < r then f + 1 else if f % 2 = 0 then f else f + 1

/-- Python `round(x, 2)` (app.py lines 47, 49, 51). -/
def rnd2 (q : ℚ) : ℚ := (hevRound (q * 100) : ℚ) / 100

/-- The numeric value carried by the string `f"{q:.1%}"` once the percent sign
is stripped and the string parsed back as a float (app.py lines 52-53 and 61):
`q` as a percentage rounded to one decimal place. -/
def pct1 (q : ℚ) : ℚ := (hevRound (q * 1000) : ℚ) / 10

/-- `round(·, 2)` lifted to pandas floats (rounding an infinity or NaN returns
it unchanged). -/
def roundP2 : PFloat → PFloat
  | .val q => .val (rnd2 q)
  | x => x

/-- 1-decimal percent formatting followed by reparsing, lifted to pandas
floats (`f"{nan:.1%}"` parses back to NaN, infinities stay infinite). -/
def pctP1 : PFloat → PFloat
  | .val q => .val (pct1 q)
  | x => x

/-- The parameters of one analysis run, as passed to `analyze_breakouts`. -/
structure Params where
  ticker : String
  startDate : Int
  endDate : Int
  volumeThreshold : ℚ
  priceThreshold : ℚ
  holdingPeriod : ℕ
deriving Repr, DecidableEq

/-- Default bar used for total indexing of a series. -/
def dBar : Bar := { date := 0, close := 0, volume := 0 }

/-- The bar at position `i` of the fetched series. -/
def barAt (S : List Bar) (i : ℕ) : Bar := S.getD i dBar

/-- The sum of the volumes in the trailing 20-bar window ending at position
`i` (inclusive of bar `i`). -/
def winVolSum (S : List Bar) (i : ℕ) : ℕ :=
  (((S.drop (i - 19)).take 20).map Bar.volume).sum

/-- `stock['Volume'].rolling(window=20).mean()` at position `i` (app.py line
32): NaN for the first 19 positions, else the arithmetic mean of the trailing
20 volumes inclusive of the current bar. -/
def ma20Volume (S : List Bar) (i : ℕ) : PFloat :=
  if 19 ≤ i then .val ((winVolSum S i : ℚ) / 20) else .nan

/-- pandas division of a finite numerator by a possibly-NaN denominator: a NaN
(or infinite) denominator yields NaN. -/
def pdivP (num : ℚ) : PFloat → PFloat
  | .val den => pdiv num den
  | _ => .nan

/-- `stock['Volume'].div(stock['MA20_Volume'])` at position `i` (app.py line
33): pandas division of the day volume by the rolling mean. -/
def volRatioAt (S : List Bar) (i : ℕ) : PFloat :=
  pdivP ((barAt S i).volume : ℚ) (ma20Volume S i)

/-- `stock['Close'].pct_change()` at position `i` (app.py line 31): NaN for
the first bar, else `(close[i] - close[i-1]) / close[i-1]`. -/
def dailyReturnAt (S : List Bar) (i : ℕ) : PFloat :=
  if i = 0 then .nan
  else pdiv ((barAt S i).close - (barAt S (i - 1)).close) ((barAt S (i - 1)).close)

/-- The breakout filter of app.py line 35: the bar date is on or after
`start_date`, the volume ratio strictly exceeds `volume_threshold`, and the
daily return strictly exceeds `price_threshold`.  (There is no upper date
bound in the filter; the fetch was issued with `end=end_date`.) -/
def qualifies (p : Params) (S : List Bar) (i : ℕ) : Bool :=
  decide (p.startDate ≤ (barAt S i).date) &&
  PFloat.gtQ (volRatioAt S i) p.volumeThreshold &&
  PFloat.gtQ (dailyReturnAt S i) p.priceThreshold

/-- The positions of the qualifying bars, in series (date) order. -/
def breakoutIdxs (p : Params) (S : List Bar) : List ℕ :=
  (List.range S.length).filter (qualifies p S)

/-- The clamped exit position for an entry at position `i`:
`min(stock.index.get_loc(date) + holding_period, len(stock.index) - 1)`
(app.py line 40). -/
def exitIdx (p : Params) (S : List Bar) (i : ℕ) : ℕ :=
  min (i + p.holdingPeriod) (S.length - 1)

/-- The forward return for an entry at position `i`, computed against the
clamped exit bar (app.py line 43). -/
def forwardReturnAt (p : Params) (S : List Bar) (i : ℕ) : PFloat :=
  pdiv ((barAt S (exitIdx p S i)).close - (barAt S i).close) ((barAt S i).close)

/-- One result row as built by app.py lines 45-54.  `dailyRetPct` and
`forwardRetPct` hold the numeric value carried by the formatted 1-decimal
percent string; prices and the ratio are rounded to 2 decimals. -/
structure BreakoutEvent where
  entryDate : Int
  entryPrice : ℚ
  exitDate : Int
  exitPrice : ℚ
  volume : ℕ
  volRat2 : PFloat
  dailyRetPct : PFloat
  forwardRetPct : PFloat
deriving Repr, DecidableEq

/-- Build the result row for a qualifying bar at position `i`. -/
def mkEvent (p : Params) (S : List Bar) (i : ℕ) : BreakoutEvent :=
  { entryDate := (barAt S i).date
    entryPrice := rnd2 (barAt S i).close
    exitDate := (barAt S (exitIdx p S i)).date
    exitPrice := rnd2 (barAt S (exitIdx p S i)).close
    volume := (barAt S i).volume
    volRat2 := roundP2 (volRatioAt S i)
    dailyRetPct := pctP1 (dailyReturnAt S i)
    forwardRetPct := pctP1 (forwardReturnAt p S i) }

/-- The successful output of a run: the event table plus the summary lines of
app.py lines 63-69. -/
structure AnalysisResult where
  events : List BreakoutEvent
  totalSignals : ℕ
  avgReturnPct : PFloat
  periodStart : Int
  periodEnd : Int
  volumeThreshold : ℚ
  priceThreshold : ℚ
  holdingPeriod : ℕ
deriving Repr, DecidableEq

/-- The outcome of `analyze_breakouts`: either the error message of app.py
line 57 followed by `return None`, or the rendered result. -/
inductive AnalysisOutcome where
  | noSignals : String → AnalysisOutcome
  | success : AnalysisResult → AnalysisOutcome
deriving Repr, DecidableEq

/-- The message of app.py line 57. -/
def noSignalsMessage (ticker : String) : String :=
  "No breakout signals found for " ++ ticker ++ " with the given parameters."

/-- The rendered result of a run with at least one qualifying bar: the event
table (app.py line 60), the signal count (line 64), and the average forward
return of line 61, which is the pandas mean of the values parsed back from the
formatted percent strings, plus the echoed parameters (lines 66-69). -/
def mkResult (p : Params) (S : List Bar) : AnalysisResult :=
  { events := (breakoutIdxs p S).map (mkEvent p S)
    totalSignals := ((breakoutIdxs p S).map (mkEvent p S)).length
    avgReturnPct :=
      pmean (((breakoutIdxs p S).map (mkEvent p S)).map BreakoutEvent.forwardRetPct)
    periodStart := p.startDate
    periodEnd := p.endDate
    volumeThreshold := p.volumeThreshold
    priceThreshold := p.priceThreshold
    holdingPeriod := p.holdingPeriod }

/-- The engine given the fetched series: app.py lines 30-74 (UI rendering
replaced by the result value). -/
def analyze (p : Params) (S : List Bar) : AnalysisOutcome :=
  if ((breakoutIdxs p S).map (mkEvent p S)).isEmpty then
    .noSignals (noSignalsMessage p.ticker)
  else .success (mkResult p S)

/-- The fetch start of app.py line 26: `start_date` minus 40 calendar days. -/
def bufferStart (p : Params) : Int := p.startDate - 40

/-- The input-widget bounds of app.py lines 83-85: `volume_threshold ≥ 0.1`,
`price_threshold ∈ [0.01, 1.0]`, `holding_period ≥ 1`. -/
def widgetAccepts (p : Params) : Bool :=
  decide ((1 : ℚ)/10 ≤ p.volumeThreshold) &&
  decide ((1 : ℚ)/100 ≤ p.priceThreshold) &&
  decide (p.priceThreshold ≤ 1) &&
  decide (1 ≤ p.holdingPeriod)

/-- The outcome of one `main` run: the widgets refuse the values, the
start/end ordering check errors before any fetch (app.py lines 88-89), or the
fetch is issued (recording the fetch start actually sent) and the engine
runs. -/
inductive RunOutcome where
  | rejectedByWidget : RunOutcome
  | orderingError : String → RunOutcome
  | ran : Int → AnalysisOutcome → RunOutcome
deriving Repr, DecidableEq

/-- One `main` run (app.py lines 77-91): the provider is the function the
fetch boundary calls with the actual fetch start and `end_date`. -/
def runAnalysis (p : Params) (provider : Int → Int → List Bar) : RunOutcome :=
  if widgetAccepts p then
    if p.endDate ≤ p.startDate then
      .orderingError "Start date must be before end date."
    else
      .ran (bufferStart p) (analyze p (provider (bufferStart p) p.endDate))
  else .rejectedByWidget

/-- The events of an outcome (empty for the no-signals outcome). -/
def eventsOf : AnalysisOutcome → List BreakoutEvent
  | .noSignals _ => []
  | .success r => r.events

/-- Modelled from the spec (§4.5): the full-precision arithmetic mean of the
events' forward-return values, used only to compare against the engine's
string-reparsing average.  `none` when no bar qualifies. -/
def specMeanForwardReturn (p : Params) (S : List Bar) : Option ℚ :=
  let idxs := breakoutIdxs p S
  if idxs.isEmpty then none
  else some ((idxs.map fun i =>
    ((barAt S (exitIdx p S i)).close - (barAt S i).close) / (barAt S i).close).sum
      / (idxs.length : ℚ))

/-! ### Concrete fixtures used by witnesses and counterexamples

Batteries marks the `Rat` field operations irreducible; concrete runs of the
engine are evaluated by `decide`, which needs them to unfold. -/

attribute [local semireducible] Rat.add Rat.sub Rat.mul Rat.inv

/-- `n` consecutive bars with constant close and constant volume. -/
def constBars (n : ℕ) (c : ℚ) (v : ℕ) : List Bar :=
  (List.range n).map fun i => { date := (i : Int), close := c, volume := v }

/-- 22 bars: 20 flat warm-up bars, a breakout bar (volume 5000 against a
trailing average of 1200, daily return 5%), and one more bar whose close makes
the breakout bar's forward return exactly 5.12%. -/
def sQual : List Bar :=
  constBars 20 100 1000 ++
    [{ date := 20, close := 105, volume := 5000 },
     { date := 21, close := 13797/125, volume := 1000 }]

/-- 21 bars whose last bar is a breakout bar. -/
def sLast : List Bar :=
  constBars 20 100 1000 ++ [{ date := 20, close := 105, volume := 5000 }]

/-- 60 flat bars: valid data, zero qualifying bars. -/
def sFlat60 : List Bar := constBars 60 100 1000

/-- 5 bars: fewer than the 20-bar warm-up window. -/
def sShort : List Bar := constBars 5 100 1000

/-- 21 bars with all-zero volume: the rolling volume mean is zero once the
window fills. -/
def sZero : List Bar := constBars 21 100 0

/-- The standard run parameters of the scenarios: 200% volume threshold, 2%
price threshold, 1-day holding period, reporting range day 20 to day 30. -/
def pA : Params :=
  { ticker := "AAPL", startDate := 20, endDate := 30,
    volumeThreshold := 2, priceThreshold := 1/50, holdingPeriod := 1 }

/-- `pA` with a 10-day holding period, longer than the data remaining after
the breakout bar. -/
def pHold : Params := { pA with holdingPeriod := 10 }

/-- `pA` with a different volume threshold. -/
def pB2 : Params := { pA with volumeThreshold := 3 }

/-- `pA` with the start and end dates swapped (ordering violated). -/
def pOrd : Params := { pA with startDate := 30, endDate := 20 }

/-- A provider that returns `sQual` for any requested range. -/
def fA : Int → Int → List Bar := fun _ _ => sQual

/-- The result of running `pA` on `sQual`: one event entered on day 20 with
forward return 5.12%, carried by the formatted string as 5.1%. -/
def rA : AnalysisResult :=
  { events := [{ entryDate := 20, entryPrice := 105, exitDate := 21,
                 exitPrice := 5519/50, volume := 5000,
                 volRat2 := .val (417/100), dailyRetPct := .val 5,
                 forwardRetPct := .val (51/10) }]
    totalSignals := 1
    avgReturnPct := .val (51/10)
    periodStart := 20
    periodEnd := 30
    volumeThreshold := 2
    priceThreshold := 1/50
    holdingPeriod := 1 }

/-! ### Helper lemmas -/

theorem barAt_mem (S : List Bar) (i : ℕ) (h : i < S.length) : barAt S i ∈ S := by
  rw [barAt, List.getD_eq_getElem S dBar h]
  exact List.getElem_mem h

theorem mem_breakoutIdxs (p : Params) (S : List Bar) (i : ℕ) :
    i ∈ breakoutIdxs p S ↔ i < S.length ∧ qualifies p S i = true := by
  simp [breakoutIdxs, List.mem_filter, List.mem_range]

theorem eventsOf_analyze (p : Params) (S : List Bar) :
    eventsOf (analyze p S) = (breakoutIdxs p S).map (mkEvent p S) := by
  rw [analyze]
  by_cases h : ((breakoutIdxs p S).map (mkEvent p S)).isEmpty
  · rw [if_pos h, eventsOf, List.isEmpty_iff.mp h]
  · rw [if_neg h]; rfl

theorem analyze_no_breakouts (p : Params) (S : List Bar)
    (h : breakoutIdxs p S = []) :
    analyze p S = .noSignals (noSignalsMessage p.ticker) := by
  rw [analyze, h]; rfl

theorem analyze_of_breakouts_ne (p : Params) (S : List Bar)
    (h : breakoutIdxs p S ≠ []) : analyze p S = .success (mkResult p S) := by
  rw [analyze, if_neg]
  simp [List.isEmpty_iff, h]

theorem analyze_success_eq (p : Params) (S : List Bar) (r : AnalysisResult)
    (h : analyze p S = .success r) :
    breakoutIdxs p S ≠ [] ∧ r = mkResult p S := by
  by_cases hne : breakoutIdxs p S = []
  · rw [analyze_no_breakouts p S hne] at h
    exact absurd h (by simp)
  · rw [analyze_of_breakouts_ne p S hne] at h
    exact ⟨hne, (AnalysisOutcome.success.inj h).symm⟩

theorem no_qual_of_short (p : Params) (S : List Bar) (h : S.length < 20) :
    breakoutIdxs p S = [] := by
  rw [breakoutIdxs, List.filter_eq_nil_iff]
  intro i hi
  have hlt : i < S.length := List.mem_range.mp hi
  have h19 : ¬ 19 ≤ i := by omega
  simp [qualifies, volRatioAt, ma20Volume, h19, pdivP, PFloat.gtQ]

theorem pfoldr_add_map_val (l : List ℚ) :
    (l.map PFloat.val).foldr PFloat.add (.val 0) = .val l.sum := by
  induction l with
  | nil => rfl
  | cons a t ih => simp [List.foldr_cons, ih, PFloat.add]

theorem pmean_map_val (l : List ℚ) (h : l ≠ []) :
    pmean (l.map PFloat.val) = .val (l.sum / (l.length : ℚ)) := by
  obtain ⟨m, hm⟩ := Nat.exists_eq_succ_of_ne_zero
    (fun h0 => h (List.length_eq_zero.mp h0))
  rw [pmean, pfoldr_add_map_val, List.length_map, hm]
  rfl

theorem winVolSum_zero_volume (S : List Bar) (i : ℕ) (h19 : 19 ≤ i)
    (hi : i < S.length) (h : winVolSum S i = 0) : (barAt S i).volume = 0 := by
  have hlen : 19 < ((S.drop (i - 19)).take 20).length := by
    rw [List.length_take, List.length_drop]; omega
  have hget : ((S.drop (i - 19)).take 20)[19] = barAt S i := by
    rw [List.getElem_take, List.getElem_drop, barAt, List.getD_eq_getElem S dBar hi]
    congr 1
    omega
  have hmem : barAt S i ∈ (S.drop (i - 19)).take 20 := by
    rw [← hget]
    exact List.getElem_mem hlen
  have hall := List.sum_eq_zero_iff.mp h
  exact hall _ (List.mem_map_of_mem Bar.volume hmem)

/-! ### Claim theorems -/

/-- C1: when the fetched series honours the requested range end, every
returned BreakoutEvent has its entry date within `[start_date, end_date]`
inclusive and comes from a bar whose volume ratio strictly exceeds
`volume_threshold` and whose daily return strictly exceeds `price_threshold`;
a bar exactly at either threshold never qualifies. -/
theorem c1_events_in_range_strict_thresholds (p : Params) (S : List Bar)
    (hend : ∀ b ∈ S, b.date ≤ p.endDate) :
    (∀ e ∈ eventsOf (analyze p S),
      p.startDate ≤ e.entryDate ∧ e.entryDate ≤ p.endDate ∧
      ∃ i, i < S.length ∧ e = mkEvent p S i ∧
        PFloat.gtQ (volRatioAt S i) p.volumeThreshold = true ∧
        PFloat.gtQ (dailyReturnAt S i) p.priceThreshold = true) ∧
    ∀ i : ℕ, (volRatioAt S i = .val p.volumeThreshold ∨
        dailyReturnAt S i = .val p.priceThreshold) →
      qualifies p S i = false := by
  constructor
  · intro e he
    rw [eventsOf_analyze, List.mem_map] at he
    obtain ⟨i, hi, rfl⟩ := he
    obtain ⟨hlen, hq⟩ := (mem_breakoutIdxs p S i).mp hi
    simp only [qualifies, Bool.and_eq_true, decide_eq_true_eq] at hq
    obtain ⟨⟨hd, hv⟩, hr⟩ := hq
    exact ⟨hd, hend _ (barAt_mem S i hlen), i, hlen, rfl, hv, hr⟩
  · intro i h
    rcases h with h | h <;> simp [qualifies, h, PFloat.gtQ]

/-- C1 instantiated on the 22-bar fixture with the standard parameters. -/
theorem c1_events_in_range_strict_thresholds_wit :
    (∀ b ∈ sQual, b.date ≤ pA.endDate) ∧
    ((∀ e ∈ eventsOf (analyze pA sQual),
      pA.startDate ≤ e.entryDate ∧ e.entryDate ≤ pA.endDate ∧
      ∃ i, i < sQual.length ∧ e = mkEvent pA sQual i ∧
        PFloat.gtQ (volRatioAt sQual i) pA.volumeThreshold = true ∧
        PFloat.gtQ (dailyReturnAt sQual i) pA.priceThreshold = true) ∧
    ∀ i : ℕ, (volRatioAt sQual i = .val pA.volumeThreshold ∨
        dailyReturnAt sQual i = .val pA.priceThreshold) →
      qualifies pA sQual i = false) :=
  ⟨by decide, c1_events_in_range_strict_thresholds pA sQual (by decide)⟩

/-- C2: for a qualifying bar at position `i` the exit bar sits at
`min (i + holding_period) (last index)`, which is always a valid position of
the fetched series; when the series ends first the last bar is used, the event
is still emitted, and the forward return is computed against the clamped exit
bar's close. -/
theorem c2_exit_clamped_in_range (p : Params) (S : List Bar) (i : ℕ)
    (hi : i ∈ breakoutIdxs p S) :
    exitIdx p S i = min (i + p.holdingPeriod) (S.length - 1) ∧
    exitIdx p S i < S.length ∧
    (S.length - 1 ≤ i + p.holdingPeriod → exitIdx p S i = S.length - 1) ∧
    (mkEvent p S i).exitDate = (barAt S (exitIdx p S i)).date ∧
    (mkEvent p S i).exitPrice = rnd2 (barAt S (exitIdx p S i)).close ∧
    (mkEvent p S i).forwardRetPct =
      pctP1 (pdiv ((barAt S (exitIdx p S i)).close - (barAt S i).close)
        (barAt S i).close) ∧
    mkEvent p S i ∈ eventsOf (analyze p S) := by
  have hlen : i < S.length := ((mem_breakoutIdxs p S i).mp hi).1
  have hpos : 0 < S.length := lt_of_le_of_lt (Nat.zero_le i) hlen
  refine ⟨rfl, ?_, ?_, rfl, rfl, rfl, ?_⟩
  · exact lt_of_le_of_lt (Nat.min_le_right _ _) (Nat.sub_lt hpos Nat.one_pos)
  · intro h
    exact min_eq_right h
  · rw [eventsOf_analyze]
    exact List.mem_map_of_mem _ hi

/-- C2 instantiated with a 10-day holding period when only one bar remains
after the entry. -/
theorem c2_exit_clamped_in_range_wit :
    (20 ∈ breakoutIdxs pHold sQual) ∧
    (exitIdx pHold sQual 20 = min (20 + pHold.holdingPeriod) (sQual.length - 1) ∧
    exitIdx pHold sQual 20 < sQual.length ∧
    (sQual.length - 1 ≤ 20 + pHold.holdingPeriod →
      exitIdx pHold sQual 20 = sQual.length - 1) ∧
    (mkEvent pHold sQual 20).exitDate = (barAt sQual (exitIdx pHold sQual 20)).date ∧
    (mkEvent pHold sQual 20).exitPrice = rnd2 (barAt sQual (exitIdx pHold sQual 20)).close ∧
    (mkEvent pHold sQual 20).forwardRetPct =
      pctP1 (pdiv ((barAt sQual (exitIdx pHold sQual 20)).close - (barAt sQual 20).close)
        (barAt sQual 20).close) ∧
    mkEvent pHold sQual 20 ∈ eventsOf (analyze pHold sQual)) :=
  ⟨by decide, c2_exit_clamped_in_range pHold sQual 20 (by decide)⟩

/-- C6: a bar whose trailing 20-bar volume mean is zero has an undefined
(NaN) volume ratio, is never treated as infinite, and is silently excluded:
it never qualifies and never appears among the breakout positions. -/
theorem c6_zero_baseline_excluded (p : Params) (S : List Bar) (i : ℕ)
    (hi : i < S.length) (h0 : ma20Volume S i = .val 0) :
    volRatioAt S i = .nan ∧ i ∉ breakoutIdxs p S ∧ qualifies p S i = false := by
  have h19 : 19 ≤ i := by
    by_contra h
    rw [ma20Volume, if_neg h] at h0
    exact PFloat.noConfusion h0
  have hsum : winVolSum S i = 0 := by
    rw [ma20Volume, if_pos h19] at h0
    have hq := PFloat.val.inj h0
    rw [div_eq_zero_iff] at hq
    rcases hq with hq | hq
    · exact_mod_cast hq
    · norm_num at hq
  have hvol : (barAt S i).volume = 0 := winVolSum_zero_volume S i h19 hi hsum
  have hratio : volRatioAt S i = .nan := by
    rw [volRatioAt, h0, hvol]
    simp [pdivP, pdiv]
  have hqf : qualifies p S i = false := by
    simp [qualifies, hratio, PFloat.gtQ]
  refine ⟨hratio, fun hmem => ?_, hqf⟩
  rw [((mem_breakoutIdxs p S i).mp hmem).2] at hqf
  exact Bool.noConfusion hqf

/-- C6 instantiated on a 21-bar series of all-zero volume. -/
theorem c6_zero_baseline_excluded_wit :
    (20 < sZero.length) ∧ (ma20Volume sZero 20 = .val 0) ∧
    (volRatioAt sZero 20 = .nan ∧ 20 ∉ breakoutIdxs pA sZero ∧
      qualifies pA sZero 20 = false) :=
  ⟨by decide, by decide, c6_zero_baseline_excluded pA sZero 20 (by decide) (by decide)⟩

/-- C3 counterexample: on the 22-bar fixture the single event's forward
return is exactly 5.12%, but the engine reports an average of 5.1%, the mean
of the values parsed back from the one-decimal percentage strings (app.py
line 61) — not the full-precision mean. -/
theorem c3_mean_reparsed_strings_cex :
    analyze pA sQual = .success rA ∧
    rA.avgReturnPct = .val (51/10) ∧
    specMeanForwardReturn pA sQual = some (32/625) ∧
    (51 : ℚ)/10 ≠ 100 * (32/625) :=
  ⟨by decide, by decide, by decide, by decide⟩

/-- C3 (amended): the reported average forward return is the arithmetic mean
of the events' forward returns after each has been formatted as a one-decimal
percentage and reparsed, that is, rounded to the nearest tenth of a percent
(ties to even); it can therefore differ from the full-precision mean. -/
theorem c3_mean_of_rounded_returns (p : Params) (S : List Bar)
    (r : AnalysisResult) (h : analyze p S = .success r)
    (hfin : ∀ i ∈ breakoutIdxs p S, (barAt S i).close ≠ 0) :
    r.avgReturnPct =
      .val (((breakoutIdxs p S).map fun i =>
          pct1 (((barAt S (exitIdx p S i)).close - (barAt S i).close)
            / (barAt S i).close)).sum / ((breakoutIdxs p S).length : ℚ)) := by
  obtain ⟨hne, rfl⟩ := analyze_success_eq p S r h
  show pmean (((breakoutIdxs p S).map (mkEvent p S)).map BreakoutEvent.forwardRetPct) = _
  rw [List.map_map]
  have hmap : (breakoutIdxs p S).map (BreakoutEvent.forwardRetPct ∘ mkEvent p S) =
      ((breakoutIdxs p S).map fun i =>
        pct1 (((barAt S (exitIdx p S i)).close - (barAt S i).close)
          / (barAt S i).close)).map PFloat.val := by
    rw [List.map_map]
    refine List.map_congr_left fun i hi => ?_
    have hc := hfin i hi
    simp [Function.comp, mkEvent, pctP1, forwardReturnAt, pdiv, hc]
  rw [hmap, pmean_map_val _ (by simp [hne]), List.length_map]

/-- C3 (amended) instantiated on the 22-bar fixture. -/
theorem c3_mean_of_rounded_returns_wit :
    (analyze pA sQual = .success rA) ∧
    (∀ i ∈ breakoutIdxs pA sQual, (barAt sQual i).close ≠ 0) ∧
    rA.avgReturnPct =
      .val (((breakoutIdxs pA sQual).map fun i =>
          pct1 (((barAt sQual (exitIdx pA sQual i)).close - (barAt sQual i).close)
            / (barAt sQual i).close)).sum / ((breakoutIdxs pA sQual).length : ℚ)) :=
  ⟨by decide, by decide, c3_mean_of_rounded_returns pA sQual rA (by decide) (by decide)⟩

/-- C4 counterexample: an empty provider response is not reported as a
distinct DataUnavailable condition and does not abort before the breakout
computation: the run returns exactly the same generic no-signals outcome as a
valid 60-bar run in which zero bars qualify. -/
theorem c4_empty_data_same_as_no_signals_cex :
    analyze pA [] = .noSignals (noSignalsMessage "AAPL") ∧
    analyze pA sFlat60 = .noSignals (noSignalsMessage "AAPL") ∧
    analyze pA [] = analyze pA sFlat60 :=
  ⟨by decide, by decide, by decide⟩

/-- C4 (amended): with no data, or fewer bars than the 20-bar warm-up window,
the engine does not report DataUnavailable: it proceeds with the breakout
computation, whose rolling window never fills, so zero bars qualify and the
generic no-signals outcome is returned (no event list, no aggregation). -/
theorem c4_short_series_generic_no_signals (p : Params) (S : List Bar)
    (h : S.length < 20) :
    analyze p S = .noSignals (noSignalsMessage p.ticker) :=
  analyze_no_breakouts p S (no_qual_of_short p S h)

/-- C4 (amended) instantiated on a 5-bar series. -/
theorem c4_short_series_generic_no_signals_wit :
    (sShort.length < 20) ∧
    analyze pA sShort = .noSignals (noSignalsMessage pA.ticker) :=
  ⟨by decide, c4_short_series_generic_no_signals pA sShort (by decide)⟩

/-- C5 counterexample: the no-signals outcome does not carry the parameters
used — two runs with different volume thresholds return byte-identical
outcomes — and it is not distinct from the outcome on an empty provider
response. -/
theorem c5_outcome_lacks_parameters_cex :
    analyze pA sFlat60 = analyze pB2 sFlat60 ∧ pA ≠ pB2 ∧
    analyze pA sFlat60 = analyze pA [] :=
  ⟨by decide, by decide, by decide⟩

/-- C5 (amended): a valid run with zero qualifying bars returns a reported
no-signals outcome (an error message naming only the ticker) and never the
success outcome, so no aggregation is performed over the empty event set; the
outcome carries no threshold values and coincides with the one produced on
empty or insufficient data. -/
theorem c5_no_signals_no_aggregation (p : Params) (S : List Bar)
    (h : breakoutIdxs p S = []) :
    analyze p S = .noSignals (noSignalsMessage p.ticker) ∧
    ∀ r : AnalysisResult, analyze p S ≠ .success r := by
  have ha := analyze_no_breakouts p S h
  refine ⟨ha, fun r hr => ?_⟩
  rw [ha] at hr
  exact AnalysisOutcome.noConfusion hr

/-- C5 (amended) instantiated on the flat 60-bar series. -/
theorem c5_no_signals_no_aggregation_wit :
    (breakoutIdxs pA sFlat60 = []) ∧
    (analyze pA sFlat60 = .noSignals (noSignalsMessage pA.ticker) ∧
      ∀ r : AnalysisResult, analyze pA sFlat60 ≠ .success r) :=
  ⟨by decide, c5_no_signals_no_aggregation pA sFlat60 (by decide)⟩

/-- C7: for every run that reaches the fetch, the start actually sent to the
data provider is `start_date` minus 40 calendar days, and buffer-region bars
(dates before `start_date`) never appear as events in the reported output. -/
theorem c7_fetch_start_minus_40 (p : Params) (f : Int → Int → List Bar)
    (hw : widgetAccepts p = true) (hlt : p.startDate < p.endDate) :
    runAnalysis p f =
      .ran (p.startDate - 40) (analyze p (f (p.startDate - 40) p.endDate)) ∧
    ∀ e ∈ eventsOf (analyze p (f (p.startDate - 40) p.endDate)),
      p.startDate ≤ e.entryDate := by
  constructor
  · rw [runAnalysis, if_pos hw, if_neg (not_le.mpr hlt)]
    rfl
  · intro e he
    rw [eventsOf_analyze, List.mem_map] at he
    obtain ⟨i, hi, rfl⟩ := he
    have hq := ((mem_breakoutIdxs _ _ _).mp hi).2
    simp only [qualifies, Bool.and_eq_true, decide_eq_true_eq] at hq
    exact hq.1.1

/-- C7 instantiated with a provider returning the 22-bar fixture. -/
theorem c7_fetch_start_minus_40_wit :
    (widgetAccepts pA = true) ∧ (pA.startDate < pA.endDate) ∧
    (runAnalysis pA fA =
      .ran (pA.startDate - 40) (analyze pA (fA (pA.startDate - 40) pA.endDate)) ∧
    ∀ e ∈ eventsOf (analyze pA (fA (pA.startDate - 40) pA.endDate)),
      pA.startDate ≤ e.entryDate) :=
  ⟨by decide, by decide, c7_fetch_start_minus_40 pA fA (by decide) (by decide)⟩

/-- C8: a request violating `start_date < end_date`, `volume_threshold > 0`,
`price_threshold ∈ (0, 1]` or `holding_period ≥ 1` never runs the analysis
(no fetch is issued), and when the widgets accept the values but the ordering
is violated the run stops at the reported ordering error before any fetch. -/
theorem c8_invalid_params_rejected (p : Params) (f : Int → Int → List Bar)
    (h : p.endDate ≤ p.startDate ∨ p.volumeThreshold ≤ 0 ∨
      p.priceThreshold ≤ 0 ∨ 1 < p.priceThreshold ∨ p.holdingPeriod < 1) :
    (∀ (fs : Int) (o : AnalysisOutcome), runAnalysis p f ≠ .ran fs o) ∧
    (widgetAccepts p = true →
      runAnalysis p f = .orderingError "Start date must be before end date.") := by
  have horder : widgetAccepts p = true → p.endDate ≤ p.startDate := by
    intro hw
    simp only [widgetAccepts, Bool.and_eq_true, decide_eq_true_eq] at hw
    obtain ⟨⟨⟨hv, hp1⟩, hp2⟩, hh⟩ := hw
    rcases h with h | h | h | h | h
    · exact h
    · linarith
    · linarith
    · linarith
    · omega
  constructor
  · intro fs o hro
    by_cases hw : widgetAccepts p = true
    · rw [runAnalysis, if_pos hw, if_pos (horder hw)] at hro
      exact RunOutcome.noConfusion hro
    · rw [runAnalysis, if_neg hw] at hro
      exact RunOutcome.noConfusion hro
  · intro hw
    rw [runAnalysis, if_pos hw, if_pos (horder hw)]

/-- C8 instantiated on a request whose start and end dates are swapped. -/
theorem c8_invalid_params_rejected_wit :
    (pOrd.endDate ≤ pOrd.startDate) ∧
    ((∀ (fs : Int) (o : AnalysisOutcome), runAnalysis pOrd fA ≠ .ran fs o) ∧
    (widgetAccepts pOrd = true →
      runAnalysis pOrd fA = .orderingError "Start date must be before end date.")) :=
  ⟨by decide, c8_invalid_params_rejected pOrd fA (Or.inl (by decide))⟩

/-- C9: the engine is a pure function of its Parameters and fetched
BarSeries: two runs on identical inputs yield identical AnalysisResult values
(and identical full-run outcomes), with no dependence on state outside the
arguments. -/
theorem c9_deterministic (p₁ p₂ : Params) (S₁ S₂ : List Bar)
    (f₁ f₂ : Int → Int → List Bar)
    (hp : p₁ = p₂) (hS : S₁ = S₂) (hf : f₁ = f₂) :
    analyze p₁ S₁ = analyze p₂ S₂ ∧ runAnalysis p₁ f₁ = runAnalysis p₂ f₂ := by
  subst hp
  subst hS
  subst hf
  exact ⟨rfl, rfl⟩

/-- C9 instantiated on the 22-bar fixture. -/
theorem c9_deterministic_wit :
    (pA = pA) ∧
    (analyze pA sQual = analyze pA sQual ∧ runAnalysis pA fA = runAnalysis pA fA) :=
  ⟨rfl, c9_deterministic pA pA sQual sQual fA fA rfl rfl rfl⟩

/-- C10: when the last bar of the series qualifies, its clamped exit position
equals its entry position, so the event exits on the entry date at the entry
price with forward return exactly zero, and that event is still emitted,
counted in the signal total and included in the reported average. -/
theorem c10_last_bar_zero_forward_return (p : Params) (S : List Bar)
    (hS : S ≠ []) (hq : qualifies p S (S.length - 1) = true)
    (hc : (barAt S (S.length - 1)).close ≠ 0) :
    exitIdx p S (S.length - 1) = S.length - 1 ∧
    forwardReturnAt p S (S.length - 1) = .val 0 ∧
    (mkEvent p S (S.length - 1)).exitDate = (mkEvent p S (S.length - 1)).entryDate ∧
    (mkEvent p S (S.length - 1)).exitPrice = (mkEvent p S (S.length - 1)).entryPrice ∧
    (mkEvent p S (S.length - 1)).forwardRetPct = .val 0 ∧
    ∃ r, analyze p S = .success r ∧ mkEvent p S (S.length - 1) ∈ r.events ∧
      r.totalSignals = r.events.length ∧
      r.avgReturnPct = pmean (r.events.map BreakoutEvent.forwardRetPct) := by
  have hpos : 0 < S.length := List.length_pos.mpr hS
  have hex : exitIdx p S (S.length - 1) = S.length - 1 :=
    min_eq_right (Nat.le_add_right _ _)
  have hfr : forwardReturnAt p S (S.length - 1) = .val 0 := by
    rw [forwardReturnAt, hex, sub_self]
    simp [pdiv, hc]
  have hmem : (S.length - 1) ∈ breakoutIdxs p S :=
    (mem_breakoutIdxs p S _).mpr ⟨Nat.sub_lt hpos Nat.one_pos, hq⟩
  have hne : breakoutIdxs p S ≠ [] := fun hnil => by
    rw [hnil] at hmem
    exact absurd hmem (List.not_mem_nil _)
  refine ⟨hex, hfr, ?_, ?_, ?_,
    mkResult p S, analyze_of_breakouts_ne p S hne,
    List.mem_map_of_mem _ hmem, rfl, rfl⟩
  · show (barAt S (exitIdx p S (S.length - 1))).date = (barAt S (S.length - 1)).date
    rw [hex]
  · show rnd2 (barAt S (exitIdx p S (S.length - 1))).close =
      rnd2 (barAt S (S.length - 1)).close
    rw [hex]
  · show pctP1 (forwardReturnAt p S (S.length - 1)) = .val 0
    rw [hfr]
    decide

/-- C10 instantiated on the 21-bar fixture whose last bar qualifies. -/
theorem c10_last_bar_zero_forward_return_wit :
    (sLast ≠ []) ∧ (qualifies pA sLast (sLast.length - 1) = true) ∧
    ((barAt sLast (sLast.length - 1)).close ≠ 0) ∧
    (exitIdx pA sLast (sLast.length - 1) = sLast.length - 1 ∧
    forwardReturnAt pA sLast (sLast.length - 1) = .val 0 ∧
    (mkEvent pA sLast (sLast.length - 1)).exitDate =
      (mkEvent pA sLast (sLast.length - 1)).entryDate ∧
    (mkEvent pA sLast (sLast.length - 1)).exitPrice =
      (mkEvent pA sLast (sLast.length - 1)).entryPrice ∧
    (mkEvent pA sLast (sLast.length - 1)).forwardRetPct = .val 0 ∧
    ∃ r, analyze pA sLast = .success r ∧
      mkEvent pA sLast (sLast.length - 1) ∈ r.events ∧
      r.totalSignals = r.events.length ∧
      r.avgReturnPct = pmean (r.events.map BreakoutEvent.forwardRetPct)) :=
  ⟨by decide, by decide, by decide,
    c10_last_bar_zero_forward_return pA sLast (by decide) (by decide) (by decide)⟩

end StockAnalysis
